import Mathlib

/-
  Verification of the build-backend reconciliation engine of the
  `polylith.workspace` components: a shallow embedding of the manifest
  document model (parsed TOML content), the deep-merge algorithm, the
  build-backend and package-manager registries, backend detection and
  workspace-state classification, together with theorems about them.

  Sources embedded:
    components/polylith/workspace/pyproject_manager.py
    components/polylith/workspace/build_backends.py
    components/polylith/workspace/build_backend_factory.py
    components/polylith/workspace/package_managers.py
    components/polylith/workspace/package_manager_factory.py
    components/polylith/workspace/create.py
-/

namespace Polylith

/-- A parsed TOML value, as held in the plain-`dict` content of
`PyProjectTOMLManager` (`dict(tomlkit.loads(...))`).  Tables keep their keys
in insertion order, exactly as Python dicts do; scalar leaves relevant to the
code are strings, integers and booleans, and arrays are treated atomically by
every operation modelled here. -/
inductive TomlValue where
  | str (s : String)
  | intV (n : Int)
  | boolV (b : Bool)
  | arr (xs : List TomlValue)
  | table (kvs : List (String × TomlValue))

/-- A manifest document: the top-level parsed TOML table
(`self._content` of `PyProjectTOMLManager`), a key-ordered association list
with unique keys (the Python `dict` invariant). -/
abbrev Doc := List (String × TomlValue)

/-- `d.get(key)` / `key in d` on a Python dict, first-occurrence lookup. -/
def lookupKey : Doc → String → Option TomlValue
  | [], _ => Option.none
  | (k, v) :: rest, key => if k = key then Option.some v else lookupKey rest key

/-- `d[key] = v` on a Python dict: update in place when the key is present
(keeping its position), append at the end otherwise. -/
def setKey : Doc → String → TomlValue → Doc
  | [], key, v => [(key, v)]
  | (k, w) :: rest, key, v =>
      if k = key then (k, v) :: rest else (k, w) :: setKey rest key v

mutual

/-- One iteration of the loop body of `_deep_merge_dict`
(pyproject_manager.py, lines 12-20): handle a single `key, value` pair of
`source` against the target `t`. -/
def mergeKey (t : Doc) (k : String) (v : TomlValue) : Doc :=
  match lookupKey t k with
  | Option.none => t ++ [(k, v)]
  | Option.some w =>
    match w, v with
    | TomlValue.table wt, TomlValue.table vt =>
        setKey t k (TomlValue.table (deepMerge wt vt))
    | _, _ => setKey t k v
termination_by sizeOf v

/-- `_deep_merge_dict(target, source)` (pyproject_manager.py, lines 12-20),
presented as a pure function returning the updated target: iterate over the
items of `source` in order.  `PyProjectTOMLManager.merge_config` applies this
to a deep copy of the current content, so the pure reading matches the code's
observable behaviour. -/
def deepMerge : Doc → Doc → Doc
  | t, [] => t
  | t, (k, v) :: rest => deepMerge (mergeKey t k v) rest
termination_by t s => sizeOf s

end

/-- Python truthiness (`if not build_system`, `bool(...)`) for the TOML
values of the model: empty strings, zero, `False`, empty arrays and empty
tables are falsy. -/
def truthy : TomlValue → Bool
  | TomlValue.str s => !(s == "")
  | TomlValue.intV n => !(n == 0)
  | TomlValue.boolV b => b
  | TomlValue.arr xs => !xs.isEmpty
  | TomlValue.table kvs => !kvs.isEmpty

/-- Truthiness of an optional value; a missing value (Python `None`, e.g.
from `dict.get` without a default) is falsy. -/
def truthyO : Option TomlValue → Bool
  | Option.none => false
  | Option.some v => truthy v

/-- Does `needle` start the list `l`? (helper for Python's `in` on strings) -/
def startsWithChars : List Char → List Char → Bool
  | [], _ => true
  | _ :: _, [] => false
  | c :: cs, d :: ds => c == d && startsWithChars cs ds

/-- Does `needle` occur contiguously in `l`? -/
def hasSubChars (needle : List Char) : List Char → Bool
  | [] => startsWithChars needle []
  | c :: rest => startsWithChars needle (c :: rest) || hasSubChars needle rest

/-- Python's `needle in haystack` on strings: contiguous substring test. -/
def pyIn (needle haystack : String) : Bool :=
  hasSubChars needle.data haystack.data

/-- Exceptions raised by the embedded code.  `valueError` models Python's
`ValueError` (carrying `str(e)`); `attributeError` models calling `.get` on a
non-dict; `typeError` models hashing an unhashable value. -/
inductive PyErr where
  | valueError (msg : String)
  | attributeError (msg : String)
  | typeError (msg : String)
deriving DecidableEq

/-- The closed set of build-backend implementations of build_backends.py:
`HatchlingBackend`, `PoetryCoreBackend`, `PdmBackend`,
`UnsupportedBuildBackend(identifier)` and `NoBuildBackend`. -/
inductive BuildBackend where
  | hatchling
  | poetryCore
  | pdmBackend
  | unsupported (identifier : String)
  | noBackend
deriving DecidableEq

/-- `get_identifier` of each backend class (build_backends.py). -/
def get_identifier : BuildBackend → String
  | BuildBackend.hatchling => "hatchling"
  | BuildBackend.poetryCore => "poetry-core"
  | BuildBackend.pdmBackend => "pdm-backend"
  | BuildBackend.unsupported identifier => identifier
  | BuildBackend.noBackend => "none"

/-- `a.is_compatible_with(b)` (build_backends.py): the three concrete
backends inherit the `BuildBackend` protocol default
`other.get_identifier() == self.get_identifier()`; `UnsupportedBuildBackend`
and `NoBuildBackend` both override it to return `False` unconditionally. -/
def is_compatible_with (a b : BuildBackend) : Bool :=
  match a with
  | BuildBackend.unsupported _ => false
  | BuildBackend.noBackend => false
  | _ => get_identifier b = get_identifier a

/-- The configuration fragment returned by
`HatchlingBackend.generate_config` (build_backends.py, lines 42-56). -/
def hatchlingConfig : Doc :=
  [("build-system", TomlValue.table
      [("requires", TomlValue.arr [TomlValue.str "hatchling"]),
       ("build-backend", TomlValue.str "hatchling.build")]),
   ("tool", TomlValue.table
      [("hatch", TomlValue.table
          [("build", TomlValue.table
              [("dev-mode-dirs", TomlValue.arr
                  [TomlValue.str "components", TomlValue.str "bases",
                   TomlValue.str "development", TomlValue.str "."])])])])]

/-- The configuration fragment returned by
`PoetryCoreBackend.generate_config` (build_backends.py, lines 65-74). -/
def poetryCoreConfig : Doc :=
  [("build-system", TomlValue.table
      [("requires", TomlValue.arr [TomlValue.str "poetry-core"]),
       ("build-backend", TomlValue.str "poetry.core.masonry.api")])]

/-- The configuration fragment returned by `PdmBackend.generate_config`
(build_backends.py, lines 86-95). -/
def pdmConfig : Doc :=
  [("build-system", TomlValue.table
      [("requires", TomlValue.arr [TomlValue.str "pdm-backend"]),
       ("build-backend", TomlValue.str "pdm.backend")])]

/-- `backend.generate_config()`: the three concrete backends return their
fixed fragment; `UnsupportedBuildBackend` and `NoBuildBackend` raise
`ValueError` (build_backends.py, lines 104-133). -/
def generate_config : BuildBackend → Except PyErr Doc
  | BuildBackend.hatchling => Except.ok hatchlingConfig
  | BuildBackend.poetryCore => Except.ok poetryCoreConfig
  | BuildBackend.pdmBackend => Except.ok pdmConfig
  | BuildBackend.unsupported identifier =>
      Except.error (PyErr.valueError
        ("Build backend '" ++ identifier ++
         "' is not supported for Polylith workspaces"))
  | BuildBackend.noBackend =>
      Except.error (PyErr.valueError "No build backend configuration found")

/-- `get_build_backend` of build_backend_factory.py restricted to string
input (the only way the detector calls it): empty string maps to
`NoBuildBackend`; otherwise case-sensitive substring matching against
`"poetry"`, `"hatchling"`, `"pdm"` in that order (first match wins, each
winner routed through the enum to its concrete class); any other non-empty
string yields `UnsupportedBuildBackend(backend)`. -/
def get_build_backend (backend : String) : BuildBackend :=
  if backend = "" then BuildBackend.noBackend
  else if pyIn "poetry" backend then BuildBackend.poetryCore
  else if pyIn "hatchling" backend then BuildBackend.hatchling
  else if pyIn "pdm" backend then BuildBackend.pdmBackend
  else BuildBackend.unsupported backend

/-- `PyProjectTOMLManager.detect_build_backend` (pyproject_manager.py,
lines 43-52): a missing or falsy `build-system` entry detects as the absent
backend (`get_build_backend("")`); a `build-system` table delegates its
`build-backend` entry (default `""`) to the factory.  The error branches
reproduce the CPython behaviour of the same code on ill-typed documents: a
truthy non-dict `build-system` has no `.get` (AttributeError), and a dict or
list `build-backend` value is unhashable in the factory's
`backend_enum not in mapping` test (TypeError), while ints and booleans are
hashable, miss the mapping and come back as `UnsupportedBuildBackend(str(x))`. -/
def detect_build_backend (doc : Doc) : Except PyErr BuildBackend :=
  match lookupKey doc "build-system" with
  | Option.none => Except.ok (get_build_backend "")
  | Option.some bs =>
    if truthy bs then
      match bs with
      | TomlValue.table kvs =>
        match lookupKey kvs "build-backend" with
        | Option.none => Except.ok (get_build_backend "")
        | Option.some (TomlValue.str s) => Except.ok (get_build_backend s)
        | Option.some (TomlValue.intV n) =>
            Except.ok (BuildBackend.unsupported (toString n))
        | Option.some (TomlValue.boolV b) =>
            Except.ok (BuildBackend.unsupported (if b then "True" else "False"))
        | Option.some (TomlValue.table _) =>
            Except.error (PyErr.typeError "unhashable type: 'dict'")
        | Option.some (TomlValue.arr _) =>
            Except.error (PyErr.typeError "unhashable type: 'list'")
      | _ => Except.error (PyErr.attributeError "object has no attribute 'get'")
    else Except.ok (get_build_backend "")

/-- `PyProjectTOMLManager.merge_backend_if_compatible` (pyproject_manager.py,
lines 64-72): detect the existing backend; raise
`ValueError("Incompatible backends: ...")` when it is incompatible with the
new backend and its identifier is not `"none"`; otherwise merge the new
backend's generated configuration into the document
(`merge_config` = deep copy + `_deep_merge_dict`). -/
def mergeBackendIfCompatible (doc : Doc) (newBackend : BuildBackend) :
    Except PyErr Doc :=
  match detect_build_backend doc with
  | Except.error e => Except.error e
  | Except.ok existing =>
    if !is_compatible_with existing newBackend
        && !(get_identifier existing == "none") then
      Except.error (PyErr.valueError
        ("Incompatible backends: existing " ++ get_identifier existing ++
         ", new " ++ get_identifier newBackend))
    else
      match generate_config newBackend with
      | Except.error e => Except.error e
      | Except.ok newConfig => Except.ok (deepMerge doc newConfig)

/-- The closed set of package managers (`PackageManagerEnum` and the four
concrete `PackageManagerMixin` subclasses of package_managers.py; the classes
are stateless singletons in bijection with the enum). -/
inductive PackageManagerEnum where
  | uv
  | hatch
  | poetry
  | pdm
deriving DecidableEq

/-- `get_identifier` of each package manager class. -/
def pmIdentifier : PackageManagerEnum → String
  | PackageManagerEnum.uv => "uv"
  | PackageManagerEnum.hatch => "hatch"
  | PackageManagerEnum.poetry => "poetry"
  | PackageManagerEnum.pdm => "pdm"

/-- `get_display_name` of each package manager class. -/
def pmDisplayName : PackageManagerEnum → String
  | PackageManagerEnum.uv => "UV"
  | PackageManagerEnum.hatch => "Hatch"
  | PackageManagerEnum.poetry => "Poetry"
  | PackageManagerEnum.pdm => "PDM"

/-- `get_build_backend` of each package manager class: the fixed bound
backend (package_managers.py). -/
def pmBackend : PackageManagerEnum → BuildBackend
  | PackageManagerEnum.uv => BuildBackend.hatchling
  | PackageManagerEnum.hatch => BuildBackend.hatchling
  | PackageManagerEnum.poetry => BuildBackend.poetryCore
  | PackageManagerEnum.pdm => BuildBackend.pdmBackend

/-- `get_init_command(project_name)` of each package manager class. -/
def get_init_command (pm : PackageManagerEnum) (projectName : String) : String :=
  match pm with
  | PackageManagerEnum.uv => "uv init --name " ++ projectName
  | PackageManagerEnum.hatch => "hatch new --cli " ++ projectName
  | PackageManagerEnum.poetry => "poetry init --name " ++ projectName
  | PackageManagerEnum.pdm => "pdm init --name " ++ projectName

/-- The part of a `pathlib.Path` the reconciliation orchestration observes:
its string rendering and its final component (`path.name`). -/
structure PathM where
  display : String
  name : String

/-- `PackageManagerMixin.generate_missing_pyproject_error` (the `namespace`
parameter is ignored by the implementation, which uses `path.name`). -/
def generate_missing_pyproject_error (pm : PackageManagerEnum) (path : PathM) :
    String :=
  "No pyproject.toml found at " ++ path.display ++ "/pyproject.toml. Run `" ++
    get_init_command pm path.name ++
    "` first to create the project configuration."

/-- `PackageManagerMixin.generate_conflicting_backend_error`. -/
def generate_conflicting_backend_error (pm : PackageManagerEnum)
    (existing : BuildBackend) (path : PathM) : String :=
  "Conflicting backend configuration in " ++ path.display ++
    "/pyproject.toml: existing " ++ get_identifier existing ++ ", but " ++
    pmDisplayName pm ++ " requires " ++ get_identifier (pmBackend pm) ++
    ". Manual configuration required."

/-- `PackageManagerMixin.merge_backend_into_pyproject` (package_managers.py,
lines 83-98), with the file system abstracted to the parsed content `doc` of
`path / "pyproject.toml"` (`PyProjectTOMLManager.from_file` yields `{}` for a
missing or empty file, here the empty list): an empty manifest raises
`ValueError` with the missing-pyproject guidance; otherwise the backend is
merged if compatible and the result (the content that `write_content` would
write back) is returned; a `ValueError` whose text contains
`"Incompatible backends"` is re-raised with the richer conflicting-backend
message, every other error propagates. -/
def merge_backend_into_pyproject (pm : PackageManagerEnum) (path : PathM)
    (doc : Doc) : Except PyErr Doc :=
  if doc.isEmpty then
    Except.error (PyErr.valueError (generate_missing_pyproject_error pm path))
  else
    match mergeBackendIfCompatible doc (pmBackend pm) with
    | Except.ok updated => Except.ok updated
    | Except.error (PyErr.valueError msg) =>
      if pyIn "Incompatible backends" msg then
        match detect_build_backend doc with
        | Except.ok existing =>
            Except.error (PyErr.valueError
              (generate_conflicting_backend_error pm existing path))
        | Except.error e => Except.error e
      else Except.error (PyErr.valueError msg)
    | Except.error e => Except.error e

/-- `get_package_manager` of package_manager_factory.py restricted to string
input: `PackageManagerEnum(s)` looks the string up among the enum values
(exact, case-sensitive match); on failure the factory raises `ValueError`
listing the valid options (`[pm.value for pm in PackageManagerEnum]` rendered
by the f-string as a Python list literal). -/
def get_package_manager (s : String) : Except PyErr PackageManagerEnum :=
  if s = "uv" then Except.ok PackageManagerEnum.uv
  else if s = "hatch" then Except.ok PackageManagerEnum.hatch
  else if s = "poetry" then Except.ok PackageManagerEnum.poetry
  else if s = "pdm" then Except.ok PackageManagerEnum.pdm
  else
    Except.error (PyErr.valueError
      ("Unsupported package manager '" ++ s ++
       "'. Valid options: ['uv', 'hatch', 'poetry', 'pdm']"))

/-- Python `d.get(key, default)` on a top-level document (always a dict). -/
def dictGet (d : Doc) (key : String) (default : TomlValue) : TomlValue :=
  match lookupKey d key with
  | Option.some v => v
  | Option.none => default

/-- Python `v.get(key, default)` on an arbitrary value: succeeds only on
dicts, otherwise raises `AttributeError`. -/
def valGetD (v : TomlValue) (key : String) (default : TomlValue) :
    Except PyErr TomlValue :=
  match v with
  | TomlValue.table kvs => Except.ok (dictGet kvs key default)
  | _ => Except.error (PyErr.attributeError "object has no attribute 'get'")

/-- Python `v.get(key)` on an arbitrary value (no default, yielding `None`
when absent): succeeds only on dicts, otherwise raises `AttributeError`. -/
def valGet (v : TomlValue) (key : String) :
    Except PyErr (Option TomlValue) :=
  match v with
  | TomlValue.table kvs => Except.ok (lookupKey kvs key)
  | _ => Except.error (PyErr.attributeError "object has no attribute 'get'")

/-- `PyProjectTOMLManager.has_complete_build_system` (pyproject_manager.py,
lines 79-87), and equally the inline completeness test of
`detect_workspace_state` (create.py, lines 76-84):
`bool(build_system.get("build-backend") and hatch_config.get("dev-mode-dirs"))`
where `build_system = content.get("build-system", {})` and
`hatch_config = content.get("tool", {}).get("hatch", {}).get("build", {})`,
with Python's evaluation order and `and` short-circuiting preserved. -/
def has_complete_build_system (doc : Doc) : Except PyErr Bool :=
  match valGetD (dictGet doc "tool" (TomlValue.table [])) "hatch"
      (TomlValue.table []) with
  | Except.error e => Except.error e
  | Except.ok hatchSection =>
    match valGetD hatchSection "build" (TomlValue.table []) with
    | Except.error e => Except.error e
    | Except.ok hatchConfig =>
      match valGet (dictGet doc "build-system" (TomlValue.table []))
          "build-backend" with
      | Except.error e => Except.error e
      | Except.ok backendEntry =>
        if truthyO backendEntry then
          match valGet hatchConfig "dev-mode-dirs" with
          | Except.error e => Except.error e
          | Except.ok devModeDirs => Except.ok (truthyO devModeDirs)
        else Except.ok false

/-- `WorkspaceStateEnum` (create.py). -/
inductive WorkspaceStateEnum where
  | fresh
  | existingComplete
  | existingNoPyproject
  | existingIncomplete
deriving DecidableEq

/-- `detect_workspace_state` (create.py, lines 63-88), with the file system
abstracted to the two existence booleans and, for the case where both files
exist, the parsed content `doc` of `pyproject.toml`; the `try`/`except
Exception` around the completeness test maps any error (parse failure or an
ill-typed document) to `EXISTING_INCOMPLETE`. -/
def detect_workspace_state (workspaceExists pyprojectExists : Bool)
    (doc : Doc) : WorkspaceStateEnum :=
  if !workspaceExists && !pyprojectExists then WorkspaceStateEnum.fresh
  else if workspaceExists && !pyprojectExists then
    WorkspaceStateEnum.existingNoPyproject
  else if workspaceExists && pyprojectExists then
    match has_complete_build_system doc with
    | Except.ok true => WorkspaceStateEnum.existingComplete
    | Except.ok false => WorkspaceStateEnum.existingIncomplete
    | Except.error _ => WorkspaceStateEnum.existingIncomplete
  else WorkspaceStateEnum.fresh

/- Specification-side vocabulary (used to state claims, not taken from the
source): dotted-path lookup, key-uniqueness predicates and substring
occurrence. -/

/-- Specification-side dotted-path lookup inside a value: follow the path
through nested tables only. -/
def lookupPathV : TomlValue → List String → Option TomlValue
  | v, [] => Option.some v
  | TomlValue.table kvs, k :: p =>
    (match lookupKey kvs k with
     | Option.some w => lookupPathV w p
     | Option.none => Option.none)
  | _, _ :: _ => Option.none

/-- Specification-side dotted-path lookup in a document. -/
def lookupPath (d : Doc) (p : List String) : Option TomlValue :=
  lookupPathV (TomlValue.table d) p

/-- Is `k` among the keys of `d`? -/
def keyMem (k : String) : Doc → Bool
  | [] => false
  | (k', _) :: rest => k' == k || keyMem k rest

/-- Are the top-level keys of `d` pairwise distinct (the Python `dict`
invariant)? -/
def noDupKeysB : Doc → Bool
  | [] => true
  | (k, _) :: rest => !keyMem k rest && noDupKeysB rest

mutual

/-- Are the keys of every table inside `v` pairwise distinct? -/
def rnodup : TomlValue → Bool
  | TomlValue.str _ => true
  | TomlValue.intV _ => true
  | TomlValue.boolV _ => true
  | TomlValue.arr _ => true
  | TomlValue.table kvs => noDupKeysB kvs && rnodupL kvs
termination_by v => sizeOf v

/-- Are the keys of every table inside the document pairwise distinct? -/
def rnodupL : Doc → Bool
  | [] => true
  | (_, v) :: rest => rnodup v && rnodupL rest
termination_by d => sizeOf d

end

/-- A document all of whose tables have pairwise distinct keys: the invariant
every document parsed from TOML (and every generated fragment) satisfies. -/
def rnodupD (d : Doc) : Bool :=
  noDupKeysB d && rnodupL d

/-- Specification-side substring occurrence: `needle` occurs contiguously in
`s`. -/
def SubstrSpec (needle s : String) : Prop :=
  ∃ p q : String, p ++ needle ++ q = s

/-- The result of `mergeKey` at the merged key, as a function of the previous
binding: absent keys receive the source value, two tables merge recursively,
anything else is overwritten by the source value. -/
def mergeRes : Option TomlValue → TomlValue → TomlValue
  | Option.none, v => v
  | Option.some (TomlValue.table wt), TomlValue.table vt =>
      TomlValue.table (deepMerge wt vt)
  | Option.some _, v => v

/-- Specification-side: a dotted path is untouched by the source fragment
`s` when, at the first point of divergence, the path's key is absent from
the fragment — descending only through fragment keys that hold nested tables
along the way (a non-table fragment value overwrites the whole subtree, and
a path ending on a fragment key is written by the merge; both count as
touched). -/
def untouched : Doc → List String → Bool
  | _, [] => false
  | s, k :: p =>
    match lookupKey s k with
    | Option.none => true
    | Option.some (TomlValue.table s2) => !p.isEmpty && untouched s2 p
    | Option.some _ => false

/-- Is the value a nested table? (specification-side vocabulary for the
merge rule's type-clash case) -/
def isTable : TomlValue → Bool
  | TomlValue.table _ => true
  | _ => false

/-- The three concrete (configuration-generating) backend variants. -/
def IsConcreteBackend (b : BuildBackend) : Prop :=
  b = BuildBackend.hatchling ∨ b = BuildBackend.poetryCore ∨
    b = BuildBackend.pdmBackend

/-- A manifest whose `build-system.build-backend` entry is the string
`"none"`: its detected backend is `UnsupportedBuildBackend("none")`. -/
def c1doc : Doc :=
  [("build-system", TomlValue.table
      [("build-backend", TomlValue.str "none")])]

/-- A manifest declaring the poetry-core build backend. -/
def c1poetryDoc : Doc :=
  [("build-system", TomlValue.table
      [("build-backend", TomlValue.str "poetry.core.masonry.api")])]

/-- A plain manifest holding only a project name. -/
def c4doc : Doc :=
  [("project", TomlValue.table [("name", TomlValue.str "demo")])]

/-- The manifest `c4doc` after one uv (Hatchling) backend merge. -/
def c4merged : Doc := deepMerge c4doc hatchlingConfig

/-- A manifest declaring the Hatchling backend whose `build-system.requires`
entry is (unusually) a nested table holding the key `foo`. -/
def c5doc : Doc :=
  [("build-system", TomlValue.table
      [("build-backend", TomlValue.str "hatchling.build"),
       ("requires", TomlValue.table [("foo", TomlValue.intV 1)])])]

/-- The manifest `c5doc` after one uv (Hatchling) backend merge. -/
def c5merged : Doc := deepMerge c5doc hatchlingConfig

/-- A manifest declaring the pdm backend whose
`tool.hatch.build.dev-mode-dirs` entry is a (truthy) string, not a list. -/
def c9doc : Doc :=
  [("build-system", TomlValue.table
      [("build-backend", TomlValue.str "pdm.backend")]),
   ("tool", TomlValue.table
      [("hatch", TomlValue.table
          [("build", TomlValue.table
              [("dev-mode-dirs", TomlValue.str "x")])])])]

/- Lemmas about lookup, update and deep merge. -/

theorem lookupKey_append_of_none {t : Doc} {k : String}
    (h : lookupKey t k = Option.none) (l : Doc) :
    lookupKey (t ++ l) k = lookupKey l k := by
  induction t with
  | nil => rfl
  | cons hd rest ih =>
    obtain ⟨k', v'⟩ := hd
    by_cases hk : k' = k
    · simp [lookupKey, hk] at h
    · simp only [lookupKey, hk, if_false, List.cons_append] at h ⊢
      exact ih h

theorem lookupKey_append_of_some {t : Doc} {k : String} {w : TomlValue}
    (h : lookupKey t k = Option.some w) (l : Doc) :
    lookupKey (t ++ l) k = Option.some w := by
  induction t with
  | nil => simp [lookupKey] at h
  | cons hd rest ih =>
    obtain ⟨k', v'⟩ := hd
    by_cases hk : k' = k
    · simp [lookupKey, hk] at h ⊢
      exact h
    · simp only [lookupKey, hk, if_false, List.cons_append] at h ⊢
      exact ih h

theorem lookupKey_setKey_self (t : Doc) (k : String) (v : TomlValue) :
    lookupKey (setKey t k v) k = Option.some v := by
  induction t with
  | nil => simp [setKey, lookupKey]
  | cons hd rest ih =>
    obtain ⟨k', w⟩ := hd
    by_cases hk : k' = k
    · simp [setKey, hk, lookupKey]
    · simp [setKey, hk, lookupKey, ih]

theorem lookupKey_setKey_other {k k' : String} (h : k' ≠ k) (t : Doc)
    (v : TomlValue) :
    lookupKey (setKey t k v) k' = lookupKey t k' := by
  induction t with
  | nil => simp [setKey, lookupKey, Ne.symm h]
  | cons hd rest ih =>
    obtain ⟨k'', w⟩ := hd
    by_cases hk : k'' = k
    · subst hk
      simp [setKey, lookupKey, Ne.symm h]
    · simp [setKey, hk, lookupKey, ih]

theorem setKey_eq_of_lookup {t : Doc} {k : String} {v : TomlValue}
    (h : lookupKey t k = Option.some v) :
    setKey t k v = t := by
  induction t with
  | nil => simp [lookupKey] at h
  | cons hd rest ih =>
    obtain ⟨k', w⟩ := hd
    by_cases hk : k' = k
    · simp [lookupKey, hk] at h
      simp [setKey, hk, h]
    · simp [lookupKey, hk] at h
      simp [setKey, hk, ih h]

theorem lookupKey_mergeKey_self (t : Doc) (k : String) (v : TomlValue) :
    lookupKey (mergeKey t k v) k = Option.some (mergeRes (lookupKey t k) v) := by
  unfold mergeKey
  cases hk : lookupKey t k with
  | none =>
    rw [lookupKey_append_of_none hk]
    simp [lookupKey, mergeRes]
  | some w =>
    cases w <;> cases v <;>
      simp [mergeRes, lookupKey_setKey_self]

theorem lookupKey_mergeKey_other {k k' : String} (h : k' ≠ k) (t : Doc)
    (v : TomlValue) :
    lookupKey (mergeKey t k v) k' = lookupKey t k' := by
  unfold mergeKey
  cases hk : lookupKey t k with
  | none =>
    cases hl : lookupKey t k' with
    | none =>
      rw [lookupKey_append_of_none hl]
      simp [lookupKey, Ne.symm h]
    | some u => rw [lookupKey_append_of_some hl]
  | some w =>
    cases w <;> cases v <;>
      simp [lookupKey_setKey_other h]

theorem lookupKey_of_keyMem_false {k : String} {d : Doc}
    (h : keyMem k d = false) :
    lookupKey d k = Option.none := by
  induction d with
  | nil => rfl
  | cons hd rest ih =>
    obtain ⟨k', v⟩ := hd
    simp [keyMem] at h
    simp [lookupKey, h.1, ih h.2]

theorem keyMem_of_mem {k : String} {v : TomlValue} {d : Doc}
    (h : (k, v) ∈ d) :
    keyMem k d = true := by
  induction d with
  | nil => cases h
  | cons hd rest ih =>
    rcases List.mem_cons.mp h with heq | hmem
    · obtain ⟨k', v'⟩ := hd
      obtain ⟨h1, h2⟩ := Prod.mk.injEq .. ▸ heq
      simp [keyMem, h1]
    · obtain ⟨k', v'⟩ := hd
      simp [keyMem, ih hmem]

theorem lookupKey_of_mem {s : Doc} (hnd : noDupKeysB s = true)
    {k : String} {v : TomlValue} (hm : (k, v) ∈ s) :
    lookupKey s k = Option.some v := by
  induction s with
  | nil => cases hm
  | cons hd rest ih =>
    obtain ⟨k0, v0⟩ := hd
    simp [noDupKeysB] at hnd
    rcases List.mem_cons.mp hm with heq | hmem
    · obtain ⟨h1, h2⟩ := Prod.mk.injEq .. ▸ heq
      subst h1
      subst h2
      simp [lookupKey]
    · by_cases hk : k0 = k
      · subst hk
        have := keyMem_of_mem hmem
        rw [hnd.1] at this
        cases this
      · simp [lookupKey, hk]
        exact ih hnd.2 hmem

theorem rnodupL_mem {s : Doc} (h : rnodupL s = true)
    {k : String} {v : TomlValue} (hm : (k, v) ∈ s) :
    rnodup v = true := by
  induction s with
  | nil => cases hm
  | cons hd rest ih =>
    obtain ⟨k0, v0⟩ := hd
    rw [rnodupL] at h
    simp at h
    rcases List.mem_cons.mp hm with heq | hmem
    · obtain ⟨h1, h2⟩ := Prod.mk.injEq .. ▸ heq
      subst h2
      exact h.1
    · exact ih h.2 hmem

theorem lookupKey_deepMerge_of_none {s : Doc} {k : String}
    (h : lookupKey s k = Option.none) (t : Doc) :
    lookupKey (deepMerge t s) k = lookupKey t k := by
  induction s generalizing t with
  | nil => rw [deepMerge]
  | cons hd rest ih =>
    obtain ⟨k0, v0⟩ := hd
    by_cases hk : k0 = k
    · simp [lookupKey, hk] at h
    · simp only [lookupKey, hk, if_false] at h
      rw [deepMerge, ih h, lookupKey_mergeKey_other (Ne.symm hk)]

theorem lookupKey_deepMerge_of_some {s : Doc} (hnd : noDupKeysB s = true)
    {k : String} {v : TomlValue} (hs : lookupKey s k = Option.some v)
    (t : Doc) :
    lookupKey (deepMerge t s) k = Option.some (mergeRes (lookupKey t k) v) := by
  induction s generalizing t with
  | nil => simp [lookupKey] at hs
  | cons hd rest ih =>
    obtain ⟨k0, v0⟩ := hd
    simp [noDupKeysB] at hnd
    by_cases hk : k0 = k
    · subst hk
      simp [lookupKey] at hs
      subst hs
      have hrest : lookupKey rest k0 = Option.none :=
        lookupKey_of_keyMem_false hnd.1
      rw [deepMerge, lookupKey_deepMerge_of_none hrest,
        lookupKey_mergeKey_self]
    · simp only [lookupKey, hk, if_false] at hs
      rw [deepMerge, ih hnd.2 hs, lookupKey_mergeKey_other (Ne.symm hk)]

/-- If every key of `s` is already bound in `d` to a value that absorbs the
corresponding source value, merging `s` into `d` changes nothing. -/
theorem deepMerge_eq_self {d s : Doc}
    (h : ∀ k v, (k, v) ∈ s →
      ∃ w, lookupKey d k = Option.some w ∧
        mergeRes (Option.some w) v = w) :
    deepMerge d s = d := by
  induction s with
  | nil => rw [deepMerge]
  | cons hd rest ih =>
    obtain ⟨k, v⟩ := hd
    obtain ⟨w, hw, hres⟩ := h k v (List.mem_cons_self _ _)
    have hmk : mergeKey d k v = d := by
      unfold mergeKey
      rw [hw]
      cases w <;> cases v <;>
        simp only [mergeRes] at hres <;>
        simp_all <;>
        exact setKey_eq_of_lookup hw
    rw [deepMerge, hmk]
    exact ih (fun k' v' hm => h k' v' (List.mem_cons_of_mem _ hm))

mutual

/-- A value with duplicate-free tables absorbs itself under merging. -/
theorem mergeRes_self : ∀ (v : TomlValue), rnodup v = true →
    mergeRes (Option.some v) v = v
  | TomlValue.str _, _ => rfl
  | TomlValue.intV _, _ => rfl
  | TomlValue.boolV _, _ => rfl
  | TomlValue.arr _, _ => rfl
  | TomlValue.table kvs, h => by
    rw [rnodup] at h
    simp at h
    show TomlValue.table (deepMerge kvs kvs) = TomlValue.table kvs
    exact congrArg TomlValue.table (deepMerge_self kvs h.1 h.2)
termination_by v => sizeOf v
decreasing_by all_goals (simp_wf; try omega)

/-- Merging a duplicate-free document into itself changes nothing. -/
theorem deepMerge_self (s : Doc) (h1 : noDupKeysB s = true)
    (h2 : rnodupL s = true) :
    deepMerge s s = s := by
  apply deepMerge_eq_self
  intro k v hm
  exact ⟨v, lookupKey_of_mem h1 hm, mergeRes_self v (rnodupL_mem h2 hm)⟩
termination_by sizeOf s
decreasing_by
  have hlt := List.sizeOf_lt_of_mem hm
  simp at hlt
  simp_wf
  omega

end

mutual

/-- The binding produced by one merge absorbs a second merge of the same
source value. -/
theorem mergeRes_absorb : ∀ (u : Option TomlValue) (v : TomlValue),
    rnodup v = true → mergeRes (Option.some (mergeRes u v)) v = mergeRes u v
  | Option.none, v, h => mergeRes_self v h
  | Option.some (TomlValue.table wt), TomlValue.table vt, h => by
    rw [rnodup] at h
    simp at h
    show TomlValue.table (deepMerge (deepMerge wt vt) vt)
      = TomlValue.table (deepMerge wt vt)
    exact congrArg TomlValue.table (deepMerge_idem wt vt h.1 h.2)
  | Option.some (TomlValue.str _), v, h => mergeRes_self v h
  | Option.some (TomlValue.intV _), v, h => mergeRes_self v h
  | Option.some (TomlValue.boolV _), v, h => mergeRes_self v h
  | Option.some (TomlValue.arr _), v, h => mergeRes_self v h
  | Option.some (TomlValue.table _), TomlValue.str _, h => mergeRes_self _ h
  | Option.some (TomlValue.table _), TomlValue.intV _, h => mergeRes_self _ h
  | Option.some (TomlValue.table _), TomlValue.boolV _, h => mergeRes_self _ h
  | Option.some (TomlValue.table _), TomlValue.arr _, h => mergeRes_self _ h
termination_by _ v => sizeOf v
decreasing_by all_goals (simp_wf; try omega)

/-- Deep merge of a duplicate-free source is idempotent: the claimed
"merging an already-present identical fragment is a no-op". -/
theorem deepMerge_idem (t s : Doc) (h1 : noDupKeysB s = true)
    (h2 : rnodupL s = true) :
    deepMerge (deepMerge t s) s = deepMerge t s := by
  apply deepMerge_eq_self
  intro k v hm
  refine ⟨mergeRes (lookupKey t k) v, ?_, ?_⟩
  · exact lookupKey_deepMerge_of_some h1 (lookupKey_of_mem h1 hm) t
  · exact mergeRes_absorb (lookupKey t k) v (rnodupL_mem h2 hm)
termination_by sizeOf s
decreasing_by
  have hlt := List.sizeOf_lt_of_mem hm
  simp at hlt
  simp_wf
  omega

end

theorem startsWithChars_iff : ∀ (nd l : List Char),
    startsWithChars nd l = true ↔ ∃ q, nd ++ q = l := by
  intro nd
  induction nd with
  | nil =>
    intro l
    simp [startsWithChars]
  | cons c cs ih =>
    intro l
    cases l with
    | nil =>
      simp [startsWithChars]
    | cons d ds =>
      simp only [startsWithChars, Bool.and_eq_true, beq_iff_eq, ih ds,
        List.cons_append, List.cons.injEq]
      constructor
      · rintro ⟨rfl, q, rfl⟩
        exact ⟨q, rfl, rfl⟩
      · rintro ⟨q, rfl, rfl⟩
        exact ⟨rfl, q, rfl⟩

theorem hasSubChars_iff : ∀ (l nd : List Char),
    hasSubChars nd l = true ↔ ∃ p q, p ++ nd ++ q = l := by
  intro l
  induction l with
  | nil =>
    intro nd
    rw [hasSubChars, startsWithChars_iff]
    constructor
    · rintro ⟨q, hq⟩
      exact ⟨[], q, hq⟩
    · rintro ⟨p, q, hpq⟩
      refine ⟨q, ?_⟩
      have hp : p = [] := by
        cases p with
        | nil => rfl
        | cons a r => simp at hpq
      subst hp
      simpa using hpq
  | cons c rest ih =>
    intro nd
    rw [hasSubChars]
    simp only [Bool.or_eq_true, startsWithChars_iff, ih nd]
    constructor
    · rintro (⟨q, hq⟩ | ⟨p, q, hpq⟩)
      · exact ⟨[], q, by simpa using hq⟩
      · exact ⟨c :: p, q, by simp [hpq]⟩
    · rintro ⟨p, q, hpq⟩
      cases p with
      | nil =>
        exact Or.inl ⟨q, by simpa using hpq⟩
      | cons a p' =>
        simp only [List.cons_append, List.cons.injEq] at hpq
        exact Or.inr ⟨p', q, hpq.2⟩

theorem pyIn_iff (needle s : String) :
    pyIn needle s = true ↔ SubstrSpec needle s := by
  rw [pyIn, hasSubChars_iff]
  constructor
  · rintro ⟨p, q, h⟩
    refine ⟨String.mk p, String.mk q, ?_⟩
    apply String.ext
    simpa [String.data_append] using h
  · rintro ⟨p, q, h⟩
    exact ⟨p.data, q.data, by
      have := congrArg String.data h
      simpa [String.data_append] using this⟩

/-- A substring occurrence exhibited by a literal append decomposition. -/
theorem substr_of_decomp (p needle q : String) :
    SubstrSpec needle (p ++ needle ++ q) :=
  ⟨p, q, rfl⟩

theorem mem_of_lookupKey {d : Doc} {k : String} {v : TomlValue}
    (h : lookupKey d k = Option.some v) :
    (k, v) ∈ d := by
  induction d with
  | nil => simp [lookupKey] at h
  | cons hd rest ih =>
    obtain ⟨k', w⟩ := hd
    by_cases hk : k' = k
    · subst hk
      simp [lookupKey] at h
      subst h
      exact List.mem_cons_self _ _
    · simp only [lookupKey, hk, if_false] at h
      exact List.mem_cons_of_mem _ (ih h)

/-- An untouched path does not occur in the fragment itself. -/
theorem lookupPathV_of_untouched : ∀ (p : List String) (s : Doc),
    untouched s p = true →
    lookupPathV (TomlValue.table s) p = Option.none := by
  intro p
  induction p with
  | nil =>
    intro s h
    simp [untouched] at h
  | cons k rest ih =>
    intro s h
    rw [untouched] at h
    rw [lookupPathV]
    cases hs : lookupKey s k with
    | none => simp
    | some w =>
      rw [hs] at h
      cases w with
      | table s2 =>
        simp at h
        simp [ih s2 h.2]
      | str s' => simp at h
      | intV n => simp at h
      | boolV b => simp at h
      | arr xs => simp at h

/-- The frame property of deep merge: a path untouched by the (duplicate-free)
source fragment resolves identically before and after the merge. -/
theorem deepMerge_untouched : ∀ (p : List String) (t s : Doc),
    noDupKeysB s = true → rnodupL s = true → untouched s p = true →
    lookupPath (deepMerge t s) p = lookupPath t p := by
  intro p
  induction p with
  | nil =>
    intro t s _ _ h
    simp [untouched] at h
  | cons k rest ih =>
    intro t s h1 h2 h
    rw [untouched] at h
    rw [lookupPath, lookupPath, lookupPathV, lookupPathV]
    cases hs : lookupKey s k with
    | none =>
      rw [lookupKey_deepMerge_of_none hs]
    | some w =>
      rw [hs] at h
      cases w with
      | table s2 =>
        simp only [Bool.and_eq_true, Bool.not_eq_true', List.isEmpty_eq_false]
          at h
        obtain ⟨hrest, hunt⟩ := h
        have hmem := mem_of_lookupKey hs
        have hrn : rnodup (TomlValue.table s2) = true := rnodupL_mem h2 hmem
        rw [rnodup] at hrn
        simp only [Bool.and_eq_true] at hrn
        rw [lookupKey_deepMerge_of_some h1 hs]
        cases ht : lookupKey t k with
        | none =>
          exact lookupPathV_of_untouched rest s2 hunt
        | some u =>
          cases u with
          | table t2 =>
            exact ih t2 s2 hrn.1 hrn.2 hunt
          | str sv =>
            cases rest with
            | nil => simp [untouched] at hunt
            | cons r rs => exact lookupPathV_of_untouched (r :: rs) s2 hunt
          | intV n =>
            cases rest with
            | nil => simp [untouched] at hunt
            | cons r rs => exact lookupPathV_of_untouched (r :: rs) s2 hunt
          | boolV b =>
            cases rest with
            | nil => simp [untouched] at hunt
            | cons r rs => exact lookupPathV_of_untouched (r :: rs) s2 hunt
          | arr xs =>
            cases rest with
            | nil => simp [untouched] at hunt
            | cons r rs => exact lookupPathV_of_untouched (r :: rs) s2 hunt
      | str sv => simp at h
      | intV n => simp at h
      | boolV b => simp at h
      | arr xs => simp at h

theorem mergeRes_str (u : Option TomlValue) (a : String) :
    mergeRes u (TomlValue.str a) = TomlValue.str a := by
  cases u with
  | none => rfl
  | some w => cases w <;> rfl

theorem ne_nil_of_lookupKey {d : Doc} {k : String} {w : TomlValue}
    (h : lookupKey d k = Option.some w) :
    d ≠ [] := by
  intro he
  rw [he] at h
  simp [lookupKey] at h

/-- If the engine's detection succeeded and the existing backend passes the
compatibility gate, the merge succeeds and returns the deep merge of the
document with the generated fragment. -/
theorem mergeBackendIfCompatible_ok {doc : Doc} {b ex : BuildBackend}
    (hdet : detect_build_backend doc = Except.ok ex)
    (hpass : is_compatible_with ex b = true ∨ get_identifier ex = "none")
    {cfg : Doc} (hcfg : generate_config b = Except.ok cfg) :
    mergeBackendIfCompatible doc b = Except.ok (deepMerge doc cfg) := by
  have hcond : (!is_compatible_with ex b
      && !(get_identifier ex == "none")) = false := by
    rcases hpass with h | h
    · simp [h]
    · simp [h]
  rw [mergeBackendIfCompatible, hdet]
  simp only [hcond, Bool.false_eq_true, if_false, hcfg]

/-- If detection succeeded but the existing backend fails the compatibility
gate, the merge raises the incompatible-backends `ValueError`. -/
theorem mergeBackendIfCompatible_err {doc : Doc} {b ex : BuildBackend}
    (hdet : detect_build_backend doc = Except.ok ex)
    (hfail : is_compatible_with ex b = false)
    (hid : get_identifier ex ≠ "none") :
    mergeBackendIfCompatible doc b = Except.error (PyErr.valueError
      ("Incompatible backends: existing " ++ get_identifier ex ++
       ", new " ++ get_identifier b)) := by
  have hcond : (!is_compatible_with ex b
      && !(get_identifier ex == "none")) = true := by
    simp [hfail, hid]
  rw [mergeBackendIfCompatible, hdet]
  simp only [hcond, if_true]

/-- Inversion: a successful merge means detection succeeded, the gate
passed, configuration generation succeeded and the result is the deep
merge. -/
theorem mergeBackendIfCompatible_ok_inv {doc : Doc} {b : BuildBackend}
    {d : Doc} (h : mergeBackendIfCompatible doc b = Except.ok d) :
    ∃ ex cfg, detect_build_backend doc = Except.ok ex ∧
      (is_compatible_with ex b = true ∨ get_identifier ex = "none") ∧
      generate_config b = Except.ok cfg ∧ d = deepMerge doc cfg := by
  rw [mergeBackendIfCompatible] at h
  split at h
  next e heq => simp at h
  next ex heq =>
    split at h
    next hcond => simp at h
    next hcond =>
      split at h
      next e2 hcfg => simp at h
      next cfg hcfg =>
        simp only [Except.ok.injEq] at h
        refine ⟨ex, cfg, heq, ?_, hcfg, h.symm⟩
        have hc : (!is_compatible_with ex b
            && !(get_identifier ex == "none")) = false := by
          simpa using hcond
        rcases Bool.and_eq_false_iff.mp hc with h1 | h2
        · exact Or.inl (by simpa using h1)
        · exact Or.inr (by simpa using h2)

/-- Inversion: a successful orchestrated merge means the manifest was
non-empty and the engine merge succeeded with the same result. -/
theorem merge_into_ok_inv {pm : PackageManagerEnum} {path : PathM}
    {doc d : Doc} (h : merge_backend_into_pyproject pm path doc = Except.ok d) :
    doc.isEmpty = false ∧
      mergeBackendIfCompatible doc (pmBackend pm) = Except.ok d := by
  rw [merge_backend_into_pyproject] at h
  split at h
  next hemp => simp at h
  next hemp =>
    refine ⟨by simpa using hemp, ?_⟩
    split at h
    next u heq =>
      simp only [Except.ok.injEq] at h
      rw [← h]
      exact heq
    next msg heq =>
      split at h
      next hin =>
        split at h
        next ex hdet => simp at h
        next e2 hdet => simp at h
      next hin => simp at h
    next e heq hne => simp at h

theorem truthy_table_of_lookup {kvs : Doc} {k : String} {w : TomlValue}
    (h : lookupKey kvs k = Option.some w) :
    truthy (TomlValue.table kvs) = true := by
  cases kvs with
  | nil => simp [lookupKey] at h
  | cons a r => simp [truthy]

/-- After merging a fragment that carries a `build-system` table with a
string `build-backend` entry, detection on the merged document resolves that
very string through the factory, whatever the original document held. -/
theorem detect_after_merge {cfg cfgBS : Doc} {ident : String}
    (hnd : noDupKeysB cfg = true)
    (hbs : lookupKey cfg "build-system" = Option.some (TomlValue.table cfgBS))
    (hndBS : noDupKeysB cfgBS = true)
    (hbb : lookupKey cfgBS "build-backend" = Option.some (TomlValue.str ident))
    (doc : Doc) :
    detect_build_backend (deepMerge doc cfg)
      = Except.ok (get_build_backend ident) := by
  have hlk := lookupKey_deepMerge_of_some hnd hbs doc
  rw [detect_build_backend, hlk]
  cases hd : lookupKey doc "build-system" with
  | none =>
    simp only [mergeRes]
    simp only [truthy_table_of_lookup hbb, if_true, hbb]
  | some w =>
    cases w with
    | table t2 =>
      simp only [mergeRes]
      have hlk2 := lookupKey_deepMerge_of_some hndBS hbb t2
      rw [mergeRes_str] at hlk2
      simp only [truthy_table_of_lookup hlk2, if_true, hlk2]
    | str sv =>
      simp only [mergeRes]
      simp only [truthy_table_of_lookup hbb, if_true, hbb]
    | intV n =>
      simp only [mergeRes]
      simp only [truthy_table_of_lookup hbb, if_true, hbb]
    | boolV b =>
      simp only [mergeRes]
      simp only [truthy_table_of_lookup hbb, if_true, hbb]
    | arr xs =>
      simp only [mergeRes]
      simp only [truthy_table_of_lookup hbb, if_true, hbb]

/-- Composition: a non-empty manifest together with a successful engine
merge yields a successful orchestrated merge. -/
theorem merge_into_ok_of {pm : PackageManagerEnum} {path : PathM}
    {doc d : Doc} (hne : doc.isEmpty = false)
    (h : mergeBackendIfCompatible doc (pmBackend pm) = Except.ok d) :
    merge_backend_into_pyproject pm path doc = Except.ok d := by
  rw [merge_backend_into_pyproject]
  simp only [hne, Bool.false_eq_true, if_false, h]

theorem noDup_hatchlingConfig : noDupKeysB hatchlingConfig = true := by rfl

theorem rnodupL_hatchlingConfig : rnodupL hatchlingConfig = true := by
  simp [hatchlingConfig, rnodupL, rnodup, noDupKeysB, keyMem]

theorem noDup_poetryCoreConfig : noDupKeysB poetryCoreConfig = true := by rfl

theorem rnodupL_poetryCoreConfig : rnodupL poetryCoreConfig = true := by
  simp [poetryCoreConfig, rnodupL, rnodup, noDupKeysB, keyMem]

theorem noDup_pdmConfig : noDupKeysB pdmConfig = true := by rfl

theorem rnodupL_pdmConfig : rnodupL pdmConfig = true := by
  simp [pdmConfig, rnodupL, rnodup, noDupKeysB, keyMem]

/-- A document of the shape produced by a successful backend merge maps to
itself when the same package manager's merge runs again. -/
theorem merge_into_idem_helper {pm : PackageManagerEnum} (path : PathM)
    {doc cfg cfgBS : Doc} {ident : String}
    (hcfg : generate_config (pmBackend pm) = Except.ok cfg)
    (hnd : noDupKeysB cfg = true) (hrn : rnodupL cfg = true)
    (hbs : lookupKey cfg "build-system" = Option.some (TomlValue.table cfgBS))
    (hndBS : noDupKeysB cfgBS = true)
    (hbb : lookupKey cfgBS "build-backend" = Option.some (TomlValue.str ident))
    (hback : get_build_backend ident = pmBackend pm)
    (hcomp : is_compatible_with (pmBackend pm) (pmBackend pm) = true) :
    merge_backend_into_pyproject pm path (deepMerge doc cfg)
      = Except.ok (deepMerge doc cfg) := by
  have hdet2 := detect_after_merge hnd hbs hndBS hbb doc
  rw [hback] at hdet2
  have hmb2 := mergeBackendIfCompatible_ok hdet2 (Or.inl hcomp) hcfg
  rw [deepMerge_idem doc cfg hnd hrn] at hmb2
  have hx := lookupKey_deepMerge_of_some hnd hbs doc
  have hne2 : (deepMerge doc cfg).isEmpty = false := by
    cases hD : deepMerge doc cfg with
    | nil => rw [hD] at hx; simp [lookupKey] at hx
    | cons a r => simp
  exact merge_into_ok_of hne2 hmb2

/- ===================== Claim theorems ===================== -/

/-- C2 counterexample: contrary to the claim, the concrete Hatchling backend
is NOT compatible with the None variant (`NoBuildBackend` has identifier
`"none"`, which differs from `"hatchling"`), and it IS compatible with an
Unsupported backend that carries the identifier `"hatchling"`. -/
theorem c2_counterexample :
    is_compatible_with BuildBackend.hatchling BuildBackend.noBackend = false ∧
    is_compatible_with BuildBackend.hatchling
      (BuildBackend.unsupported "hatchling") = true :=
  ⟨rfl, rfl⟩

/-- C2 (amended): isCompatibleWith(a, b) is true exactly when the receiver
`a` is one of the three concrete backends and `b`'s identifier equals `a`'s;
the None and Unsupported variants are compatible with nothing as receiver,
and a concrete receiver accepts any counterpart with a matching identifier,
Unsupported ones included. -/
theorem c2_is_compatible_characterization (a b : BuildBackend) :
    is_compatible_with a b = true ↔
      (IsConcreteBackend a ∧ get_identifier b = get_identifier a) := by
  cases a <;>
    simp [is_compatible_with, IsConcreteBackend, get_identifier]

/-- C2 witness: the characterization applied to PoetryCore against an
Unsupported backend carrying the identifier "poetry-core". -/
theorem c2_witness :
    is_compatible_with BuildBackend.poetryCore
      (BuildBackend.unsupported "poetry-core") = true :=
  (c2_is_compatible_characterization BuildBackend.poetryCore
    (BuildBackend.unsupported "poetry-core")).mpr
    ⟨Or.inr (Or.inl rfl), rfl⟩

/-- C3: for every key of the (duplicate-free) source, deep merge inserts the
source value when the key is absent in the target, merges recursively when
both sides hold nested tables, and otherwise overwrites the target value
with the source value.  (The operation is modelled as a pure function on a
deep copy, exactly as `merge_config` performs it, so the original target is
untouched by construction.) -/
theorem c3_deep_merge_spec (t s : Doc) (hnd : noDupKeysB s = true)
    (k : String) (v : TomlValue) (hs : lookupKey s k = Option.some v) :
    (lookupKey t k = Option.none →
       lookupKey (deepMerge t s) k = Option.some v) ∧
    (∀ wt vt, lookupKey t k = Option.some (TomlValue.table wt) →
       v = TomlValue.table vt →
       lookupKey (deepMerge t s) k
         = Option.some (TomlValue.table (deepMerge wt vt))) ∧
    (∀ w, lookupKey t k = Option.some w → (isTable w && isTable v) = false →
       lookupKey (deepMerge t s) k = Option.some v) := by
  have hmain := lookupKey_deepMerge_of_some hnd hs t
  refine ⟨?_, ?_, ?_⟩
  · intro ht
    rw [hmain, ht]
    rfl
  · intro wt vt ht hv
    subst hv
    rw [hmain, ht]
    rfl
  · intro w ht hw
    rw [hmain, ht]
    cases w <;> cases v <;> simp [isTable] at hw <;> simp [mergeRes]

/-- C3 witness: merging `{a: 2}` into `{a: 1}` overwrites the scalar. -/
theorem c3_witness :
    lookupKey (deepMerge [("a", TomlValue.intV 1)] [("a", TomlValue.intV 2)])
      "a" = Option.some (TomlValue.intV 2) :=
  (c3_deep_merge_spec [("a", TomlValue.intV 1)] [("a", TomlValue.intV 2)]
      rfl "a" (TomlValue.intV 2) rfl).2.2 (TomlValue.intV 1) rfl rfl

/-- C6: the string-to-backend factory maps the empty string to the None
variant; a non-empty string containing "poetry" to PoetryCore (regardless of
the other tokens: first match wins), else one containing "hatchling" to
Hatchling, else one containing "pdm" to PdmBackend (case-sensitive substring
containment); and any other non-empty string to Unsupported(s). -/
theorem c6_get_build_backend_spec (s : String) :
    (s = "" → get_build_backend s = BuildBackend.noBackend) ∧
    (s ≠ "" → SubstrSpec "poetry" s →
       get_build_backend s = BuildBackend.poetryCore) ∧
    (s ≠ "" → ¬SubstrSpec "poetry" s → SubstrSpec "hatchling" s →
       get_build_backend s = BuildBackend.hatchling) ∧
    (s ≠ "" → ¬SubstrSpec "poetry" s → ¬SubstrSpec "hatchling" s →
       SubstrSpec "pdm" s → get_build_backend s = BuildBackend.pdmBackend) ∧
    (s ≠ "" → ¬SubstrSpec "poetry" s → ¬SubstrSpec "hatchling" s →
       ¬SubstrSpec "pdm" s → get_build_backend s = BuildBackend.unsupported s)
    := by
  refine ⟨?_, ?_, ?_, ?_, ?_⟩
  · intro h
    rw [get_build_backend, if_pos h]
  · intro h1 h2
    rw [get_build_backend, if_neg h1, if_pos ((pyIn_iff "poetry" s).mpr h2)]
  · intro h1 h2 h3
    rw [get_build_backend, if_neg h1,
      if_neg (fun hc => h2 ((pyIn_iff "poetry" s).mp hc)),
      if_pos ((pyIn_iff "hatchling" s).mpr h3)]
  · intro h1 h2 h3 h4
    rw [get_build_backend, if_neg h1,
      if_neg (fun hc => h2 ((pyIn_iff "poetry" s).mp hc)),
      if_neg (fun hc => h3 ((pyIn_iff "hatchling" s).mp hc)),
      if_pos ((pyIn_iff "pdm" s).mpr h4)]
  · intro h1 h2 h3 h4
    rw [get_build_backend, if_neg h1,
      if_neg (fun hc => h2 ((pyIn_iff "poetry" s).mp hc)),
      if_neg (fun hc => h3 ((pyIn_iff "hatchling" s).mp hc)),
      if_neg (fun hc => h4 ((pyIn_iff "pdm" s).mp hc))]

/-- C6 witness: a string containing both "poetry" and "hatchling" resolves
to PoetryCore (priority order), and the capitalised "Poetry" matches nothing
(case-sensitivity) and is Unsupported. -/
theorem c6_witness :
    get_build_backend "poetry-hatchling" = BuildBackend.poetryCore ∧
    get_build_backend "Poetry" = BuildBackend.unsupported "Poetry" := by
  constructor
  · exact (c6_get_build_backend_spec "poetry-hatchling").2.1 (by decide)
      ⟨"", "-hatchling", by decide⟩
  · exact (c6_get_build_backend_spec "Poetry").2.2.2.2 (by decide)
      (fun hs => absurd ((pyIn_iff "poetry" "Poetry").mpr hs) (by decide))
      (fun hs => absurd ((pyIn_iff "hatchling" "Poetry").mpr hs) (by decide))
      (fun hs => absurd ((pyIn_iff "pdm" "Poetry").mpr hs) (by decide))

/-- C7: merging a backend into an absent or empty manifest always fails with
the missing-pyproject `ValueError` (no manifest is ever created), and the
error message contains the package manager's native init command for the
project name taken from the path. -/
theorem c7_missing_manifest (pm : PackageManagerEnum) (path : PathM) :
    merge_backend_into_pyproject pm path []
      = Except.error
          (PyErr.valueError (generate_missing_pyproject_error pm path)) ∧
    SubstrSpec (get_init_command pm path.name)
      (generate_missing_pyproject_error pm path) := by
  constructor
  · rfl
  · exact ⟨"No pyproject.toml found at " ++ path.display ++
        "/pyproject.toml. Run `",
      "` first to create the project configuration.", rfl⟩

/-- C10: a directory with a manifest but no workspace marker file classifies
as Fresh, identically to a directory with neither file, and independently of
the manifest content. -/
theorem c10_no_marker_is_fresh (doc doc2 : Doc) :
    detect_workspace_state false true doc = WorkspaceStateEnum.fresh ∧
    detect_workspace_state false true doc
      = detect_workspace_state false false doc2 :=
  ⟨rfl, rfl⟩

/-- C1 counterexample: for the manifest whose `build-system.build-backend`
string is `"none"`, the detected backend is the Unsupported variant (not the
None variant) and is incompatible with the concrete Hatchling backend, yet
`merge_backend_if_compatible` does not fail: the gate tests the detected
identifier against the string `"none"`, not the variant, so the merge
succeeds. -/
theorem c1_counterexample :
    detect_build_backend c1doc = Except.ok (BuildBackend.unsupported "none") ∧
    is_compatible_with (BuildBackend.unsupported "none")
      BuildBackend.hatchling = false ∧
    mergeBackendIfCompatible c1doc BuildBackend.hatchling
      = Except.ok (deepMerge c1doc hatchlingConfig) := by
  refine ⟨rfl, rfl, ?_⟩
  have hdet : detect_build_backend c1doc
      = Except.ok (BuildBackend.unsupported "none") := rfl
  have hid : get_identifier (BuildBackend.unsupported "none") = "none" := rfl
  have hcfg : generate_config BuildBackend.hatchling
      = Except.ok hatchlingConfig := rfl
  exact mergeBackendIfCompatible_ok hdet (Or.inr hid) hcfg

/-- C1 (amended): for every document on which backend detection succeeds and
every concrete new backend, the merge fails with the IncompatibleBackends
ValueError exactly when the detected backend is incompatible with the new
one AND the detected identifier is not the string "none"; otherwise it
returns the deep merge of the document with the generated configuration
(the document value itself is never mutated: the merge is pure). -/
theorem c1_merge_if_compatible_spec (doc : Doc) (b ex : BuildBackend)
    (hdet : detect_build_backend doc = Except.ok ex)
    (hb : IsConcreteBackend b) :
    (is_compatible_with ex b = false → get_identifier ex ≠ "none" →
       mergeBackendIfCompatible doc b = Except.error (PyErr.valueError
         ("Incompatible backends: existing " ++ get_identifier ex ++
          ", new " ++ get_identifier b))) ∧
    ((is_compatible_with ex b = true ∨ get_identifier ex = "none") →
       ∃ cfg, generate_config b = Except.ok cfg ∧
         mergeBackendIfCompatible doc b = Except.ok (deepMerge doc cfg)) := by
  constructor
  · intro h1 h2
    exact mergeBackendIfCompatible_err hdet h1 h2
  · intro hpass
    obtain ⟨cfg, hcfg⟩ : ∃ cfg, generate_config b = Except.ok cfg := by
      rcases hb with rfl | rfl | rfl
      · exact ⟨hatchlingConfig, rfl⟩
      · exact ⟨poetryCoreConfig, rfl⟩
      · exact ⟨pdmConfig, rfl⟩
    exact ⟨cfg, hcfg, mergeBackendIfCompatible_ok hdet hpass hcfg⟩

/-- C1 witness: a manifest declaring poetry-core rejects the Hatchling
backend with the incompatible-backends error. -/
theorem c1_witness :
    mergeBackendIfCompatible c1poetryDoc BuildBackend.hatchling
      = Except.error (PyErr.valueError
          "Incompatible backends: existing poetry-core, new hatchling") :=
  (c1_merge_if_compatible_spec c1poetryDoc BuildBackend.hatchling
      BuildBackend.poetryCore rfl (Or.inl rfl)).1 rfl (by decide)

/-- C4: idempotence of the orchestrated backend merge — if it succeeds once,
running it again on the produced manifest succeeds and returns the identical
manifest content. -/
theorem c4_merge_backend_idempotent (pm : PackageManagerEnum) (path : PathM)
    (doc d : Doc)
    (h : merge_backend_into_pyproject pm path doc = Except.ok d) :
    merge_backend_into_pyproject pm path d = Except.ok d := by
  obtain ⟨hne, hmb⟩ := merge_into_ok_inv h
  obtain ⟨ex, cfg, hdet, hpass, hcfg, hd⟩ := mergeBackendIfCompatible_ok_inv hmb
  subst hd
  cases pm with
  | uv =>
    simp only [pmBackend, generate_config, Except.ok.injEq] at hcfg
    subst hcfg
    exact merge_into_idem_helper path rfl noDup_hatchlingConfig
      rnodupL_hatchlingConfig rfl rfl rfl rfl rfl
  | hatch =>
    simp only [pmBackend, generate_config, Except.ok.injEq] at hcfg
    subst hcfg
    exact merge_into_idem_helper path rfl noDup_hatchlingConfig
      rnodupL_hatchlingConfig rfl rfl rfl rfl rfl
  | poetry =>
    simp only [pmBackend, generate_config, Except.ok.injEq] at hcfg
    subst hcfg
    exact merge_into_idem_helper path rfl noDup_poetryCoreConfig
      rnodupL_poetryCoreConfig rfl rfl rfl rfl rfl
  | pdm =>
    simp only [pmBackend, generate_config, Except.ok.injEq] at hcfg
    subst hcfg
    exact merge_into_idem_helper path rfl noDup_pdmConfig
      rnodupL_pdmConfig rfl rfl rfl rfl rfl

/-- C4 witness: a first uv merge into a plain manifest succeeds, and the
second run reproduces the identical content. -/
theorem c4_witness :
    merge_backend_into_pyproject PackageManagerEnum.uv ⟨"/ws", "ws"⟩ c4doc
      = Except.ok c4merged ∧
    merge_backend_into_pyproject PackageManagerEnum.uv ⟨"/ws", "ws"⟩ c4merged
      = Except.ok c4merged := by
  have hdet : detect_build_backend c4doc = Except.ok BuildBackend.noBackend :=
    rfl
  have hid : get_identifier BuildBackend.noBackend = "none" := rfl
  have hcfg : generate_config (pmBackend PackageManagerEnum.uv)
      = Except.ok hatchlingConfig := rfl
  have h1 : mergeBackendIfCompatible c4doc (pmBackend PackageManagerEnum.uv)
      = Except.ok c4merged :=
    mergeBackendIfCompatible_ok hdet (Or.inr hid) hcfg
  have hne : c4doc.isEmpty = false := rfl
  have h2 : merge_backend_into_pyproject PackageManagerEnum.uv ⟨"/ws", "ws"⟩
      c4doc = Except.ok c4merged := merge_into_ok_of hne h1
  exact ⟨h2,
    c4_merge_backend_idempotent PackageManagerEnum.uv ⟨"/ws", "ws"⟩
      c4doc c4merged h2⟩

theorem lookupPath_cons (d : Doc) (k : String) (p : List String) :
    lookupPath d (k :: p)
      = (match lookupKey d k with
         | Option.some w => lookupPathV w p
         | Option.none => Option.none) := rfl

theorem lookupPathV_table (kvs : Doc) (k : String) (p : List String) :
    lookupPathV (TomlValue.table kvs) (k :: p)
      = (match lookupKey kvs k with
         | Option.some w => lookupPathV w p
         | Option.none => Option.none) := rfl

theorem lookupPath_c5merged_foo : lookupPath c5merged ["build-system", "requires", "foo"]
    = Option.none := by
  have h1 := lookupKey_deepMerge_of_some (t := c5doc) noDup_hatchlingConfig
    (show lookupKey hatchlingConfig "build-system"
        = Option.some (TomlValue.table
            [("requires", TomlValue.arr [TomlValue.str "hatchling"]),
             ("build-backend", TomlValue.str "hatchling.build")]) from rfl)
  rw [show lookupKey c5doc "build-system"
      = Option.some (TomlValue.table
          [("build-backend", TomlValue.str "hatchling.build"),
           ("requires", TomlValue.table [("foo", TomlValue.intV 1)])])
    from rfl] at h1
  simp only [mergeRes] at h1
  have h2 := lookupKey_deepMerge_of_some
    (t := [("build-backend", TomlValue.str "hatchling.build"),
           ("requires", TomlValue.table [("foo", TomlValue.intV 1)])])
    (s := [("requires", TomlValue.arr [TomlValue.str "hatchling"]),
           ("build-backend", TomlValue.str "hatchling.build")])
    (by rfl)
    (k := "requires") (v := TomlValue.arr [TomlValue.str "hatchling"])
    (by rfl)
  rw [show lookupKey
        [("build-backend", TomlValue.str "hatchling.build"),
         ("requires", TomlValue.table [("foo", TomlValue.intV 1)])] "requires"
      = Option.some (TomlValue.table [("foo", TomlValue.intV 1)])
    from rfl] at h2
  simp only [mergeRes] at h2
  rw [show lookupPath c5merged ["build-system", "requires", "foo"]
      = lookupPath (deepMerge c5doc hatchlingConfig)
          ["build-system", "requires", "foo"] from rfl]
  rw [lookupPath_cons]
  simp only [h1]
  rw [lookupPathV_table]
  simp only [h2]
  rfl

/-- C5 counterexample: a successful uv merge into `c5doc` destroys the key
`build-system.requires.foo`, which is present before the merge and does not
occur in the generated Hatchling fragment (the fragment's non-table value at
`build-system.requires` overwrites the whole nested table). -/
theorem c5_counterexample :
    merge_backend_into_pyproject PackageManagerEnum.uv ⟨"/ws", "ws"⟩ c5doc
      = Except.ok c5merged ∧
    lookupPath c5doc ["build-system", "requires", "foo"]
      = Option.some (TomlValue.intV 1) ∧
    lookupPath hatchlingConfig ["build-system", "requires", "foo"]
      = Option.none ∧
    lookupPath c5merged ["build-system", "requires", "foo"]
      = Option.none := by
  refine ⟨?_, rfl, rfl, ?_⟩
  · have hdet : detect_build_backend c5doc
        = Except.ok BuildBackend.hatchling := rfl
    have hcomp : is_compatible_with BuildBackend.hatchling
        (pmBackend PackageManagerEnum.uv) = true := rfl
    have hcfg : generate_config (pmBackend PackageManagerEnum.uv)
        = Except.ok hatchlingConfig := rfl
    have hne : c5doc.isEmpty = false := rfl
    exact merge_into_ok_of hne
      (mergeBackendIfCompatible_ok hdet (Or.inl hcomp) hcfg)
  · exact lookupPath_c5merged_foo

/-- C5 (amended): a successful backend merge preserves, value for value,
every dotted path that is untouched by the generated fragment: absent from
it at the point of divergence, descending only through fragment keys that
hold nested tables (paths below a non-table fragment value — which the merge
overwrites wholesale — and paths named by the fragment itself are exempt). -/
theorem c5_frame_property (pm : PackageManagerEnum) (path : PathM)
    (doc d : Doc) (p : List String) (cfg : Doc)
    (h : merge_backend_into_pyproject pm path doc = Except.ok d)
    (hcfg : generate_config (pmBackend pm) = Except.ok cfg)
    (hu : untouched cfg p = true) :
    lookupPath d p = lookupPath doc p := by
  obtain ⟨hne, hmb⟩ := merge_into_ok_inv h
  obtain ⟨ex, cfg2, hdet, hpass, hcfg2, hd⟩ := mergeBackendIfCompatible_ok_inv hmb
  rw [hcfg] at hcfg2
  injection hcfg2 with hcc
  subst hcc
  subst hd
  have hnods : noDupKeysB cfg = true ∧ rnodupL cfg = true := by
    cases pm with
    | uv =>
      simp only [pmBackend, generate_config, Except.ok.injEq] at hcfg
      rw [← hcfg]
      exact ⟨noDup_hatchlingConfig, rnodupL_hatchlingConfig⟩
    | hatch =>
      simp only [pmBackend, generate_config, Except.ok.injEq] at hcfg
      rw [← hcfg]
      exact ⟨noDup_hatchlingConfig, rnodupL_hatchlingConfig⟩
    | poetry =>
      simp only [pmBackend, generate_config, Except.ok.injEq] at hcfg
      rw [← hcfg]
      exact ⟨noDup_poetryCoreConfig, rnodupL_poetryCoreConfig⟩
    | pdm =>
      simp only [pmBackend, generate_config, Except.ok.injEq] at hcfg
      rw [← hcfg]
      exact ⟨noDup_pdmConfig, rnodupL_pdmConfig⟩
  exact deepMerge_untouched p doc cfg hnods.1 hnods.2 hu

/-- C5 witness: `project.name` survives a successful uv merge unchanged. -/
theorem c5_witness :
    lookupPath c4merged ["project", "name"]
      = lookupPath c4doc ["project", "name"] := by
  have hdet : detect_build_backend c4doc = Except.ok BuildBackend.noBackend :=
    rfl
  have hid : get_identifier BuildBackend.noBackend = "none" := rfl
  have hcfg : generate_config (pmBackend PackageManagerEnum.uv)
      = Except.ok hatchlingConfig := rfl
  have h1 : mergeBackendIfCompatible c4doc (pmBackend PackageManagerEnum.uv)
      = Except.ok c4merged :=
    mergeBackendIfCompatible_ok hdet (Or.inr hid) hcfg
  have hne : c4doc.isEmpty = false := rfl
  have h2 : merge_backend_into_pyproject PackageManagerEnum.uv ⟨"/ws", "ws"⟩
      c4doc = Except.ok c4merged := merge_into_ok_of hne h1
  have hu : untouched hatchlingConfig ["project", "name"] = true := rfl
  exact c5_frame_property PackageManagerEnum.uv ⟨"/ws", "ws"⟩ c4doc c4merged
    ["project", "name"] hatchlingConfig h2 hcfg hu

theorem substr_append_left (a : String) {n b : String}
    (h : SubstrSpec n b) : SubstrSpec n (a ++ b) := by
  obtain ⟨p, q, hh⟩ := h
  refine ⟨a ++ p, q, ?_⟩
  simp only [String.append_assoc] at hh ⊢
  rw [hh]

theorem lookupPath_single {d : Doc} {k : String} {v : TomlValue} :
    lookupPath d [k] = Option.some v ↔ lookupKey d k = Option.some v := by
  rw [lookupPath_cons]
  constructor
  · intro h
    split at h
    next w heq =>
      rw [lookupPathV] at h
      injection h with hw
      subst hw
      exact heq
    next heq => exact Option.noConfusion h
  · intro h
    rw [h]
    cases v <;> rfl

theorem lookupPath_cons_some {d : Doc} {k : String} {p : List String}
    {v : TomlValue} (h : lookupPath d (k :: p) = Option.some v)
    (hp : p ≠ []) :
    ∃ kvs, lookupKey d k = Option.some (TomlValue.table kvs) ∧
      lookupPath kvs p = Option.some v := by
  rw [lookupPath_cons] at h
  split at h
  next w heq =>
    cases w with
    | table kvs => exact ⟨kvs, heq, h⟩
    | str s =>
      cases p with
      | nil => exact absurd rfl hp
      | cons a as => simp [lookupPathV] at h
    | intV n =>
      cases p with
      | nil => exact absurd rfl hp
      | cons a as => simp [lookupPathV] at h
    | boolV b =>
      cases p with
      | nil => exact absurd rfl hp
      | cons a as => simp [lookupPathV] at h
    | arr xs =>
      cases p with
      | nil => exact absurd rfl hp
      | cons a as => simp [lookupPathV] at h
  next heq => exact Option.noConfusion h

theorem lookupPath_build {d : Doc} {k : String} {p : List String} {kvs : Doc}
    (h1 : lookupKey d k = Option.some (TomlValue.table kvs)) :
    lookupPath d (k :: p) = lookupPath kvs p := by
  rw [lookupPath_cons, h1]
  rfl

/-- C8 counterexample: the factory is case-sensitive — contrary to the
claim, the uppercase identifier "UV" does not resolve to the uv package
manager but fails with the unsupported-package-manager error. -/
theorem c8_counterexample :
    get_package_manager "UV" = Except.error (PyErr.valueError
      "Unsupported package manager 'UV'. Valid options: ['uv', 'hatch', 'poetry', 'pdm']")
    := rfl

/-- C8 (amended): the factory succeeds exactly on the four identifiers
`uv`, `hatch`, `poetry`, `pdm` compared case-SENSITIVELY (exact string
equality, so e.g. "UV" and "Poetry" are rejected); every other string fails
with a ValueError whose message enumerates all four valid identifiers. -/
theorem c8_get_package_manager_spec (s : String) :
    (get_package_manager s = Except.ok PackageManagerEnum.uv ↔ s = "uv") ∧
    (get_package_manager s = Except.ok PackageManagerEnum.hatch ↔
      s = "hatch") ∧
    (get_package_manager s = Except.ok PackageManagerEnum.poetry ↔
      s = "poetry") ∧
    (get_package_manager s = Except.ok PackageManagerEnum.pdm ↔ s = "pdm") ∧
    (s ≠ "uv" → s ≠ "hatch" → s ≠ "poetry" → s ≠ "pdm" →
      ∃ msg, get_package_manager s = Except.error (PyErr.valueError msg) ∧
        SubstrSpec "uv" msg ∧ SubstrSpec "hatch" msg ∧
        SubstrSpec "poetry" msg ∧ SubstrSpec "pdm" msg) := by
  rw [get_package_manager]
  split_ifs with h1 h2 h3 h4
  · subst h1
    exact ⟨by simp, by simp, by simp, by simp,
      fun h _ _ _ => absurd rfl h⟩
  · subst h2
    exact ⟨by simp [h1], by simp, by simp, by simp,
      fun _ h _ _ => absurd rfl h⟩
  · subst h3
    exact ⟨by simp [h1], by simp [h2], by simp, by simp,
      fun _ _ h _ => absurd rfl h⟩
  · subst h4
    exact ⟨by simp [h1], by simp [h2], by simp [h3], by simp,
      fun _ _ _ h => absurd rfl h⟩
  · refine ⟨by simp [h1], by simp [h2], by simp [h3], by simp [h4],
      fun _ _ _ _ => ⟨_, rfl, ?_, ?_, ?_, ?_⟩⟩
    · exact substr_append_left ("Unsupported package manager '" ++ s)
        ⟨"'. Valid options: ['", "', 'hatch', 'poetry', 'pdm']", rfl⟩
    · exact substr_append_left ("Unsupported package manager '" ++ s)
        ⟨"'. Valid options: ['uv', '", "', 'poetry', 'pdm']", rfl⟩
    · exact substr_append_left ("Unsupported package manager '" ++ s)
        ⟨"'. Valid options: ['uv', 'hatch', '", "', 'pdm']", rfl⟩
    · exact substr_append_left ("Unsupported package manager '" ++ s)
        ⟨"'. Valid options: ['uv', 'hatch', 'poetry', '", "']", rfl⟩

/-- C8 witness: the unknown identifier "flit" is rejected with a message
enumerating all four valid identifiers. -/
theorem c8_witness :
    ∃ msg, get_package_manager "flit" = Except.error (PyErr.valueError msg) ∧
      SubstrSpec "uv" msg ∧ SubstrSpec "hatch" msg ∧
      SubstrSpec "poetry" msg ∧ SubstrSpec "pdm" msg :=
  (c8_get_package_manager_spec "flit").2.2.2.2 (by decide) (by decide)
    (by decide) (by decide)

theorem valGetD_ok_inv {v d u : TomlValue} {k : String}
    (h : valGetD v k d = Except.ok u) :
    ∃ kvs, v = TomlValue.table kvs ∧ u = dictGet kvs k d := by
  cases v with
  | table kvs =>
    rw [valGetD] at h
    injection h with hu
    exact ⟨kvs, rfl, hu.symm⟩
  | str s => exact Except.noConfusion h
  | intV n => exact Except.noConfusion h
  | boolV b => exact Except.noConfusion h
  | arr xs => exact Except.noConfusion h

theorem valGet_ok_inv {v : TomlValue} {k : String} {o : Option TomlValue}
    (h : valGet v k = Except.ok o) :
    ∃ kvs, v = TomlValue.table kvs ∧ o = lookupKey kvs k := by
  cases v with
  | table kvs =>
    rw [valGet] at h
    injection h with ho
    exact ⟨kvs, rfl, ho.symm⟩
  | str s => exact Except.noConfusion h
  | intV n => exact Except.noConfusion h
  | boolV b => exact Except.noConfusion h
  | arr xs => exact Except.noConfusion h

/-- If the detector's chained `.get` calls produced a build-backend entry,
that entry is the value at the dotted path `build-system.build-backend`. -/
theorem c9_bs_path {doc : Doc} {bb : TomlValue}
    (heq3 : valGet (dictGet doc "build-system" (TomlValue.table []))
        "build-backend" = Except.ok (Option.some bb)) :
    lookupPath doc ["build-system", "build-backend"] = Option.some bb := by
  obtain ⟨kvs1, hv1, ho1⟩ := valGet_ok_inv heq3
  cases hbs0 : lookupKey doc "build-system" with
  | none =>
    simp only [dictGet, hbs0] at hv1
    injection hv1 with hk
    subst hk
    simp [lookupKey] at ho1
  | some w0 =>
    simp only [dictGet, hbs0] at hv1
    subst hv1
    rw [lookupPath_build hbs0]
    exact lookupPath_single.mpr ho1.symm

/-- If the detector's chained `.get` calls (with empty-table defaults)
produced a dev-mode-dirs entry, that entry is the value at the dotted path
`tool.hatch.build.dev-mode-dirs`. -/
theorem c9_chain_path {doc : Doc} {hatchSection hatchBuild dd : TomlValue}
    (heq1 : valGetD (dictGet doc "tool" (TomlValue.table [])) "hatch"
        (TomlValue.table []) = Except.ok hatchSection)
    (heq2 : valGetD hatchSection "build" (TomlValue.table [])
        = Except.ok hatchBuild)
    (heq4 : valGet hatchBuild "dev-mode-dirs"
        = Except.ok (Option.some dd)) :
    lookupPath doc ["tool", "hatch", "build", "dev-mode-dirs"]
      = Option.some dd := by
  obtain ⟨kvs0, hv0, hs0⟩ := valGetD_ok_inv heq1
  obtain ⟨kvsH, hvH, hsH⟩ := valGetD_ok_inv heq2
  obtain ⟨kvsB, hvB, hoB⟩ := valGet_ok_inv heq4
  cases ht0 : lookupKey doc "tool" with
  | none =>
    simp only [dictGet, ht0] at hv0
    injection hv0 with hk0
    subst hk0
    rw [hvH] at hs0
    simp [dictGet, lookupKey] at hs0
    subst hs0
    rw [hvB] at hsH
    simp [dictGet, lookupKey] at hsH
    subst hsH
    simp [lookupKey] at hoB
  | some w0 =>
    simp only [dictGet, ht0] at hv0
    subst hv0
    cases ht1 : lookupKey kvs0 "hatch" with
    | none =>
      rw [hvH] at hs0
      simp only [dictGet, ht1] at hs0
      simp at hs0
      subst hs0
      rw [hvB] at hsH
      simp [dictGet, lookupKey] at hsH
      subst hsH
      simp [lookupKey] at hoB
    | some w1 =>
      rw [hvH] at hs0
      simp only [dictGet, ht1] at hs0
      subst hs0
      cases ht2 : lookupKey kvsH "build" with
      | none =>
        rw [hvB] at hsH
        simp only [dictGet, ht2] at hsH
        simp at hsH
        subst hsH
        simp [lookupKey] at hoB
      | some w2 =>
        rw [hvB] at hsH
        simp only [dictGet, ht2] at hsH
        subst hsH
        rw [lookupPath_build ht0, lookupPath_build ht1, lookupPath_build ht2]
        exact lookupPath_single.mpr hoB.symm

/-- C9 counterexample: a manifest declaring the pdm backend whose
`tool.hatch.build.dev-mode-dirs` entry is the non-empty STRING "x" (not a
list) is reported complete, and a workspace holding it classifies as
ExistingComplete — truthiness, not list-ness, is what the code tests. -/
theorem c9_counterexample :
    has_complete_build_system c9doc = Except.ok true ∧
    detect_workspace_state true true c9doc
      = WorkspaceStateEnum.existingComplete ∧
    lookupPath c9doc ["tool", "hatch", "build", "dev-mode-dirs"]
      = Option.some (TomlValue.str "x") :=
  ⟨rfl, rfl, rfl⟩

/-- C9 (amended): the completeness probe returns true exactly when the
document holds a truthy `build-system.build-backend` entry AND a truthy
`tool.hatch.build.dev-mode-dirs` entry (in practice a non-empty list; any
truthy value passes) — the Hatchling-specific hatch section is the
completeness marker for every backend — and a workspace whose marker file
and manifest both exist classifies as ExistingComplete exactly when that
probe returns true (so a poetry-core or pdm manifest without the hatch
dev-mode-dirs wiring is ExistingIncomplete). -/
theorem c9_completeness_spec (doc : Doc) :
    (has_complete_build_system doc = Except.ok true ↔
      ((∃ bb, lookupPath doc ["build-system", "build-backend"]
          = Option.some bb ∧ truthy bb = true) ∧
       (∃ dd, lookupPath doc ["tool", "hatch", "build", "dev-mode-dirs"]
          = Option.some dd ∧ truthy dd = true))) ∧
    (detect_workspace_state true true doc
        = WorkspaceStateEnum.existingComplete ↔
      has_complete_build_system doc = Except.ok true) := by
  constructor
  · constructor
    · intro h
      rw [has_complete_build_system] at h
      split at h
      next e heq1 => exact Except.noConfusion h
      next hatchSection heq1 =>
        split at h
        next e heq2 => exact Except.noConfusion h
        next hatchBuild heq2 =>
          split at h
          next e heq3 => exact Except.noConfusion h
          next backendEntry heq3 =>
            split at h
            next htr =>
              split at h
              next e heq4 => exact Except.noConfusion h
              next dmd heq4 =>
                injection h with hb2
                cases hbe : backendEntry with
                | none => rw [hbe] at htr; simp [truthyO] at htr
                | some bb =>
                  cases hdm : dmd with
                  | none => rw [hdm] at hb2; simp [truthyO] at hb2
                  | some dd =>
                    rw [hbe] at heq3 htr
                    rw [hdm] at heq4 hb2
                    refine ⟨⟨bb, c9_bs_path heq3, ?_⟩,
                      ⟨dd, c9_chain_path heq1 heq2 heq4, ?_⟩⟩
                    · simpa [truthyO] using htr
                    · simpa [truthyO] using hb2
            next htr =>
              injection h with hb2
              exact absurd hb2.symm (by simp)
    · rintro ⟨⟨bb, hpb, htb⟩, ⟨dd, hpd, htd⟩⟩
      obtain ⟨kvs1, hbs0, hp1⟩ := lookupPath_cons_some hpb (by simp)
      have hbb1 := lookupPath_single.mp hp1
      obtain ⟨kvs0, ht0, hp2⟩ := lookupPath_cons_some hpd (by simp)
      obtain ⟨kvsH, ht1, hp3⟩ := lookupPath_cons_some hp2 (by simp)
      obtain ⟨kvsB, ht2, hp4⟩ := lookupPath_cons_some hp3 (by simp)
      have hdd := lookupPath_single.mp hp4
      rw [has_complete_build_system]
      simp [dictGet, valGetD, valGet, ht0, ht1, ht2, hbs0, hbb1, hdd,
        truthyO, htb, htd]
  · cases hres : has_complete_build_system doc with
    | ok bv =>
      cases bv with
      | true => simp [detect_workspace_state, hres]
      | false => simp [detect_workspace_state, hres]
    | error e => simp [detect_workspace_state, hres]

/-- C9 witness: the amended characterization applied to the (complete)
document `c9doc`. -/
theorem c9_witness : has_complete_build_system c9doc = Except.ok true :=
  (c9_completeness_spec c9doc).1.mpr
    ⟨⟨TomlValue.str "pdm.backend", rfl, rfl⟩,
     ⟨TomlValue.str "x", rfl, rfl⟩⟩

/-- C7 witness: the pdm manager rejects an empty manifest at `/repo/demo`
with guidance containing `pdm init --name demo`. -/
theorem c7_witness :
    merge_backend_into_pyproject PackageManagerEnum.pdm
        ⟨"/repo/demo", "demo"⟩ []
      = Except.error (PyErr.valueError (generate_missing_pyproject_error
          PackageManagerEnum.pdm ⟨"/repo/demo", "demo"⟩)) ∧
    SubstrSpec (get_init_command PackageManagerEnum.pdm "demo")
      (generate_missing_pyproject_error PackageManagerEnum.pdm
        ⟨"/repo/demo", "demo"⟩) :=
  c7_missing_manifest PackageManagerEnum.pdm ⟨"/repo/demo", "demo"⟩

/-- C10 witness: the manifest-only classification applied to a concrete
manifest. -/
theorem c10_witness :
    detect_workspace_state false true c4doc = WorkspaceStateEnum.fresh :=
  (c10_no_marker_is_fresh c4doc []).1

end Polylith
